import Mathlib

/-!
Verification of the ClawdBot orchestration core: a shallow embedding of the
skill router, model picker, metrics collector, message-metadata store,
reaction handler, user-prompt handler and session store, with theorems about
the properties the specification states.

JavaScript strings are modelled as `List Char`; JS numbers that hold
timestamps or counters as `ℕ`/`ℤ`; fractional keyword scores as `ℚ`
(all scores are finite sums of 1 and 0.5, which are exact in both binary
floating point and `ℚ`). JS `null`/`undefined` fields are modelled with
`Option`; JS truthiness of a number is `≠ 0`, of a string `≠ ""`.
-/

namespace Clawd

/-- Character list of a string literal. -/
def str (s : String) : List Char := s.data

/-- JS `s.toLowerCase()`, modelled per character. -/
def jsToLower (s : List Char) : List Char := s.map Char.toLower

/-- JS `s.includes(sub)`: substring containment test. -/
def jsIncludes (s sub : List Char) : Bool := decide (sub <:+: s)

/-- JS truthiness of an optional number (`null`/`undefined` and `0` are falsy). -/
def optTruthy : Option ℕ → Bool
  | none => false
  | some n => n != 0

/-- JS truthiness of an optional integer (`null`/`undefined` and `0` are falsy). -/
def optTruthyInt : Option ℤ → Bool
  | none => false
  | some n => n != 0

/-- JS numeric coercion of an optional number (`null` coerces to 0). -/
def jsNum : Option ℕ → ℤ
  | none => 0
  | some n => n

/-- JS template rendering of an optional number (`null` prints as "null"). -/
def jsNumStr : Option ℤ → List Char
  | none => str "null"
  | some v => (toString v).data

end Clawd

namespace Clawd.JsMap

/-- JS `Map.prototype.get` over an insertion-ordered association list. -/
def mapGet {α : Type} (m : List (ℕ × α)) (k : ℕ) : Option α :=
  (m.find? (fun p => p.1 == k)).map (fun p => p.2)

/-- JS `Map.prototype.set`: replace in place if the key exists, else append. -/
def mapSet {α : Type} (m : List (ℕ × α)) (k : ℕ) (v : α) : List (ℕ × α) :=
  if (m.find? (fun p => p.1 == k)).isSome then
    m.map (fun p => if p.1 == k then (k, v) else p)
  else
    m ++ [(k, v)]

/-- JS `Map.prototype.delete` (returning only the resulting map). -/
def mapDelete {α : Type} (m : List (ℕ × α)) (k : ℕ) : List (ℕ × α) :=
  m.filter (fun p => p.1 != k)

end Clawd.JsMap

namespace Clawd.SkillRouter

open Clawd

/-- One entry of the skill registration table (`skills` in skill-router.js).
Only the fields `detectSkill` consults (the id and the keyword list) plus the
display name are embedded; the model list, timeout and handler path are
configuration that `detectSkill` never reads. -/
structure Skill where
  id : List Char
  name : List Char
  keywords : List (List Char)
deriving DecidableEq

/-- The registration table of skill-router.js, in its literal order. -/
def skills : List Skill :=
  [ ⟨str "web-search", str "Web Search",
      [str "search", str "find", str "look up", str "google", str "web", str "information"]⟩
  , ⟨str "pr-review", str "PR Reviewer",
      [str "pr", str "pull request", str "review", str "check code"]⟩
  , ⟨str "code-exec", str "Code Executor",
      [str "run", str "execute", str "compile", str "test code"]⟩
  , ⟨str "file-ops", str "File Operations",
      [str "download", str "upload", str "file", str "save", str "fetch"]⟩
  , ⟨str "web-scrape", str "Web Scraper",
      [str "scrape", str "extract", str "crawl", str "parse"]⟩
  , ⟨str "organize", str "Organizer",
      [str "organize", str "sort", str "categorize", str "structure"]⟩
  , ⟨str "docker-mgr", str "Docker Manager",
      [str "docker", str "container", str "deploy", str "spin up"]⟩
  , ⟨str "tts", str "Text to Speech",
      [str "speak", str "say", str "voice", str "audio", str "tts"]⟩
  , ⟨str "skill-creator", str "Skill Creator",
      [str "create skill", str "new skill", str "add skill", str "make skill", str "skill creator"]⟩ ]

/-- The per-keyword accumulation step of `detectSkill`: a matched keyword adds
1, then the redundant re-test of the same substring adds the 0.5 bonus. -/
def keywordFold (lower : List Char) (score : ℚ) (kw : List Char) : ℚ :=
  if jsIncludes lower kw then
    score + 1 + (if jsIncludes lower (jsToLower kw) then 1/2 else 0)
  else score

/-- Cumulative keyword score of one skill against the lowered text. -/
def skillScore (lower : List Char) (kws : List (List Char)) : ℚ :=
  kws.foldl (keywordFold lower) 0

/-- The `scores` table of `detectSkill`: each registered skill paired with its
cumulative score, in registration order. -/
def skillScores (message : List Char) : List (List Char × ℚ) :=
  skills.map (fun s => (s.id, skillScore (jsToLower message) s.keywords))

/-- The best-score selection step of `detectSkill` (`if (score > bestScore)`),
starting from `bestSkill = null, bestScore = 0`. -/
def detectStep (acc : Option (List Char) × ℚ) (p : List Char × ℚ) :
    Option (List Char) × ℚ :=
  if p.2 > acc.2 then (some p.1, p.2) else acc

/-- Result of intent classification. -/
structure DetectResult where
  skill : List Char
  confidence : ℚ
deriving DecidableEq

/-- The return statement of `detectSkill`: the best skill with its score when
the best score is positive, else the default `general` with confidence 0
(`bestSkill` is `null` only in the latter case; `getD` supplies the unused
default). -/
def detectFinish (best : Option (List Char) × ℚ) : DetectResult :=
  if best.2 > 0 then ⟨best.1.getD (str "general"), best.2⟩
  else ⟨str "general", 0⟩

/-- `detectSkill` of skill-router.js. -/
def detectSkill (message : List Char) : DetectResult :=
  detectFinish ((skillScores message).foldl detectStep (none, 0))

/-- Specification-side running maximum of the score column, from bound `b`. -/
def runningMax (b : ℚ) (l : List (List Char × ℚ)) : ℚ :=
  l.foldl (fun m p => max m p.2) b

/-- Specification-side highest cumulative score (all scores, floored at 0). -/
def maxScore (message : List Char) : ℚ := runningMax 0 (skillScores message)

/-- Specification-side tie-break: the earliest entry whose score equals `m`
(the earliest-registered skill in table iteration order). -/
def firstMax (m : ℚ) : List (List Char × ℚ) → Option (List Char × ℚ)
  | [] => none
  | p :: rest => if p.2 = m then some p else firstMax m rest

/-- Specification-side winner: the earliest-registered skill id achieving `m`. -/
def firstArgmax (m : ℚ) (l : List (List Char × ℚ)) : Option (List Char) :=
  (firstMax m l).map (fun p => p.1)

/-- Number of a skill's keywords occurring in the lowered text. -/
def matchCount (lower : List Char) (kws : List (List Char)) : ℕ :=
  kws.countP (fun kw => jsIncludes lower kw)

/-- Keyword list of a registered skill id (empty for `general` or unknown ids). -/
def keywordsOf (id : List Char) : List (List Char) :=
  ((skills.find? (fun s => s.id == id)).map (fun s => s.keywords)).getD []

end Clawd.SkillRouter

namespace Clawd.ModelPicker

open Clawd

/-- One model configuration of the `models` table of the model picker. -/
structure ModelConfig where
  name : List Char
  model : List Char
  provider : List Char
  glmModel : List Char
  maxTokens : ℕ
  temperature : ℚ
  useCase : List Char
deriving DecidableEq

/-- The `fast` (Haiku) configuration. -/
def fastModel : ModelConfig :=
  ⟨str "Haiku (Fast)", str "claude-haiku-4-20250514", str "glm", str "glm-4.7",
    4000, 7/10, str "Simple questions, quick responses, initial analysis"⟩

/-- The `smart` (Sonnet) configuration. -/
def smartModel : ModelConfig :=
  ⟨str "Sonnet (Smart)", str "claude-sonnet-4-20250514", str "glm", str "glm-4.7",
    8000, 5/10, str "Complex tasks, code analysis, deep reasoning"⟩

/-- The context record consulted by the model picker: the conversation depth
(`context.conversationTurns`, 0 when absent) and the optional explicit
override string (`context.forceModel`). -/
structure PickContext where
  conversationTurns : ℕ
  forceModel : Option (List Char)
deriving DecidableEq

/-- `analyzeTaskComplexity` of the model picker. Each summand is one `if`
increment of the source, in source order; the sequential `complexityScore +=`
accumulation is written as the sum of its contributions, and the final
`Math.max(0, complexityScore)` is the outer `max`. -/
def analyzeTaskComplexity (message : List Char) (ctx : PickContext) : ℤ :=
  let lower := jsToLower message
  max 0 <|
    (if jsIncludes lower (str "analyze") || jsIncludes lower (str "analysis") then 2 else 0)
    + (if jsIncludes lower (str "review") || jsIncludes lower (str "audit") then 2 else 0)
    + (if jsIncludes lower (str "implement") || jsIncludes lower (str "create") then 2 else 0)
    + (if jsIncludes lower (str "debug") || jsIncludes lower (str "fix") then 2 else 0)
    + (if jsIncludes lower (str "optimize") || jsIncludes lower (str "improve") then 2 else 0)
    + (if jsIncludes lower (str "architecture") || jsIncludes lower (str "design") then 3 else 0)
    + (if jsIncludes lower (str "code") || jsIncludes lower (str "function")
          || jsIncludes lower (str "class") then 1 else 0)
    + (if jsIncludes lower (str "pr") || jsIncludes lower (str "pull request") then 2 else 0)
    + (if jsIncludes lower (str "refactor") then 2 else 0)
    + (if message.length > 200 then 1 else 0)
    + (if message.length > 500 then 2 else 0)
    + (if ctx.conversationTurns > 3 then 1 else 0)
    - (if jsIncludes lower (str "what is") || jsIncludes lower (str "define") then 1 else 0)
    - (if jsIncludes lower (str "list") || jsIncludes lower (str "show me") then 1 else 0)
    - (if message.length < 50 then 1 else 0)

/-- The fixed decision threshold of `chooseModel`. -/
def complexityThreshold : ℤ := 3

/-- `chooseModel` of the model picker: the complexity is computed first (a
pure computation), an explicit `forceModel` override is honoured before the
scoring decision, otherwise the score is compared with the threshold. -/
def chooseModel (message : List Char) (ctx : PickContext) : ModelConfig :=
  if ctx.forceModel = some (str "fast") then fastModel
  else if ctx.forceModel = some (str "smart") then smartModel
  else if analyzeTaskComplexity message ctx ≥ complexityThreshold then smartModel
  else fastModel

end Clawd.ModelPicker

namespace Clawd.Metrics

open Clawd

/-- The named timing checkpoints of a `MetricsCollector` instance; `none`
models a checkpoint that was never marked (its field stays `null`). -/
structure Timings where
  receivedAt : Option ℕ
  fastPathCheck : Option ℕ
  acknowledgmentSent : Option ℕ
  orchestratorStart : Option ℕ
  orchestratorEnd : Option ℕ
  skillDetection : Option ℕ
  modelSelection : Option ℕ
  promptBuilding : Option ℕ
  apiCallStart : Option ℕ
  apiCallEnd : Option ℕ
  responseFormatStart : Option ℕ
  responseFormatEnd : Option ℕ
  responseSent : Option ℕ
deriving DecidableEq

/-- Flow metadata of a `MetricsCollector` instance. -/
structure Flow where
  skill : Option (List Char)
  model : Option (List Char)
  complexityScore : Option ℤ
  confidence : Option ℚ
  subAgents : List (List Char)
  hasError : Bool
  errorMessage : Option (List Char)
deriving DecidableEq

/-- `MetricsCollector.getDuration`: `null` when either endpoint is falsy
(unmarked, or the never-occurring timestamp 0), else `end - start`. -/
def getDuration (start stop : Option ℕ) : Option ℤ :=
  if !optTruthy start || !optTruthy stop then none
  else some (jsNum stop - jsNum start)

/-- The breakdown view produced by `MetricsCollector.getBreakdown`. -/
structure Breakdown where
  timestamps : Timings
  fastPathCheck : Option ℤ
  acknowledgment : Option ℤ
  preOrchestrator : Option ℤ
  skillDetection : Option ℤ
  modelSelection : Option ℤ
  promptBuilding : Option ℤ
  apiCall : Option ℤ
  formatting : Option ℤ
  postProcessing : Option ℤ
  orchestrator : Option ℤ
  total : ℤ
  flow : Flow
deriving DecidableEq

/-- `MetricsCollector.getBreakdown`, as a function of the current time `now`
and the collector's recorded state. -/
def getBreakdown (now : ℕ) (t : Timings) (f : Flow) : Breakdown :=
  { timestamps := t
  , fastPathCheck := getDuration t.receivedAt t.fastPathCheck
  , acknowledgment := getDuration t.fastPathCheck t.acknowledgmentSent
  , preOrchestrator := getDuration t.acknowledgmentSent t.orchestratorStart
  , skillDetection := getDuration t.orchestratorStart t.skillDetection
  , modelSelection := getDuration t.skillDetection t.modelSelection
  , promptBuilding := getDuration t.modelSelection t.promptBuilding
  , apiCall := getDuration t.apiCallStart t.apiCallEnd
  , formatting := getDuration t.responseFormatStart t.responseFormatEnd
  , postProcessing := getDuration t.responseFormatEnd t.responseSent
  , orchestrator :=
      if optTruthy t.apiCallEnd then some (jsNum t.apiCallEnd - jsNum t.orchestratorStart)
      else none
  , total :=
      if optTruthy t.responseSent then jsNum t.responseSent - jsNum t.receivedAt
      else (now : ℤ) - jsNum t.receivedAt
  , flow := f }

end Clawd.Metrics

namespace Clawd.Bot

open Clawd Clawd.JsMap

/-- The three verbosity levels (the strings `minimal`/`medium`/`full`). -/
inductive Verbosity
  | minimal
  | medium
  | full
deriving DecidableEq

/-- The verbosity control emoji set (`EMOJI.VERBOSITY`). -/
def verbosityEmojis : List (List Char) := [str "🔇", str "🔉", str "🔊"]

/-- `isVerbosityEmoji` of emoji-mappings.js. -/
def isVerbosityEmoji (e : List Char) : Bool := verbosityEmojis.contains e

/-- `getVerbosityFromEmoji` of emoji-mappings.js. -/
def getVerbosityFromEmoji (e : List Char) : Option Verbosity :=
  if e = str "🔇" then some .minimal
  else if e = str "🔉" then some .medium
  else if e = str "🔊" then some .full
  else none

/-- `getModelEmoji` of emoji-mappings.js. -/
def getModelEmoji (modelName : List Char) : List Char :=
  if modelName = [] then str "🤖"
  else
    let lower := jsToLower modelName
    if jsIncludes lower (str "haiku") || jsIncludes lower (str "fast")
        || jsIncludes lower (str "glm-4") then str "⚡"
    else if jsIncludes lower (str "sonnet") || jsIncludes lower (str "smart") then str "🧠"
    else if jsIncludes lower (str "opus") || jsIncludes lower (str "premium") then str "👑"
    else str "🤖"

/-- `getReactionsForVerbosity`: the verbosity toggles offered after a change —
every level except the current one. Each reaction object is
`{type:'emoji', emoji}`; the constant tag is dropped and only the emoji kept. -/
def getReactionsForVerbosity (current : Verbosity) : List (List Char) :=
  (if current ≠ .minimal then [str "🔇"] else [])
  ++ (if current ≠ .medium then [str "🔉"] else [])
  ++ (if current ≠ .full then [str "🔊"] else [])

/-- One option of an interactive prompt, as normalised by `promptUser`. -/
structure PromptOption where
  label : List Char
  emoji : List Char
  action : List Char
  description : List Char
deriving DecidableEq

/-- A message-metadata record as held by `MessageMetadataStore`. The fields
are the union of what the bot stores on send and what the reaction and
prompt handlers read or merge in via `update`; `[]` models an absent or
empty (falsy) string field. -/
structure MsgMeta where
  chatId : ℤ
  originalMessage : List Char
  originalResponse : List Char
  responseText : List Char
  skill : List Char
  model : List Char
  metrics : Option Clawd.Metrics.Breakdown
  modelExplanation : Option (List Char)
  complexityScore : Option ℤ
  verbosity : Verbosity
  retentionMs : Option ℕ
  pendingRetry : Bool
  forceModel : List Char
  userFeedback : List Char
  promptAnswered : Bool
  selectedOption : Option PromptOption
  createdAt : ℕ
  expiresAt : ℕ
deriving DecidableEq

/-- The message-id-keyed map inside `MessageMetadataStore`. -/
abbrev Store : Type := List (ℕ × MsgMeta)

/-- `defaultRetentionMs` of `MessageMetadataStore` (one hour). -/
def defaultRetentionMs : ℕ := 3600000

/-- The retention chosen by `store`: `metadata.retentionMs || default`
(a present-but-zero retention is falsy and also falls back). -/
def retentionOf (md : MsgMeta) : ℕ :=
  match md.retentionMs with
  | some r => if r ≠ 0 then r else defaultRetentionMs
  | none => defaultRetentionMs

/-- `MessageMetadataStore.store`: refuse a falsy message id (0 models it),
else insert the record with `createdAt = now` and
`expiresAt = now + retention`. -/
def storeStore (st : Store) (id : ℕ) (md : MsgMeta) (now : ℕ) : Bool × Store :=
  if id = 0 then (false, st)
  else (true, mapSet st id { md with createdAt := now, expiresAt := now + retentionOf md })

/-- `MessageMetadataStore.get`: absent gives `null`; an expired record is
deleted lazily (read-triggered eviction) and `null` returned; otherwise the
record is returned unchanged. -/
def storeGet (st : Store) (id : ℕ) (now : ℕ) : Option MsgMeta × Store :=
  match mapGet st id with
  | none => (none, st)
  | some r => if now > r.expiresAt then (none, mapDelete st id) else (some r, st)

/-- `MessageMetadataStore.update`: merge fields into an existing record,
preserving the original `createdAt`/`expiresAt`; `false` when absent. The
merged partial object is modelled by a field-update function. -/
def storeUpdate (st : Store) (id : ℕ) (upd : MsgMeta → MsgMeta) : Bool × Store :=
  match mapGet st id with
  | none => (false, st)
  | some r =>
      (true, mapSet st id { upd r with createdAt := r.createdAt, expiresAt := r.expiresAt })

/-- One line of the timing-breakdown rendering (`├─ Label: Nms\n`). -/
def segLine (pre : List Char) (p : Option ℤ × List Char) : List Char :=
  pre ++ p.2 ++ str ": " ++ jsNumStr p.1 ++ str "ms\n"

/-- The branch/tree rendering of the defined segments in
`formatMetricsDetails`: first line with `├─`, middle lines with `├─`,
and a final `└─` line when more than one segment is defined. -/
def renderSegs (l : List (Option ℤ × List Char)) : List Char :=
  match l with
  | [] => []
  | f :: rest =>
      segLine (str "├─ ") f
      ++ ((rest.dropLast).map (segLine (str "├─ "))).flatten
      ++ (match rest.getLast? with
          | some la => segLine (str "└─ ") la
          | none => [])

/-- The fixed segment table of `formatMetricsDetails` (key, label). -/
def metricsSegments (m : Clawd.Metrics.Breakdown) : List (Option ℤ × List Char) :=
  [ (m.fastPathCheck, str "Fast Path Check")
  , (m.acknowledgment, str "Acknowledgment")
  , (m.skillDetection, str "Skill Detection")
  , (m.modelSelection, str "Model Selection")
  , (m.promptBuilding, str "Prompt Building")
  , (m.apiCall, str "API Call")
  , (m.formatting, str "Formatting") ]

/-- `formatMetricsDetails` of reaction-handler.js. -/
def formatMetricsDetails (m : Clawd.Metrics.Breakdown) : List Char :=
  str "⏱️ **Timing Breakdown**\n"
  ++ (if m.total ≠ 0 then str "Total: " ++ (toString m.total).data ++ str "ms\n" else [])
  ++ renderSegs ((metricsSegments m).filter (fun p => optTruthyInt p.1))

/-- The fixed reaction-hint line appended in full verbosity. -/
def hintLine : List Char :=
  str "\n\n💡 *Reactions*: 🔇🔉🔊 verbosity | 🧠 retry smart | 🤔 explain | 📊 metrics"

/-- `formatResponseWithVerbosity` of reaction-handler.js: a header for
medium/full (when the model — and, for full, also the skill — is present),
a metrics block for medium/full when a snapshot is present, the response
text, and the reaction hint in full mode. -/
def formatResponseWithVerbosity (responseText skill model : List Char)
    (metricsData : Option Clawd.Metrics.Breakdown) (modelExplanation : Option (List Char))
    (complexityScore : Option ℤ) (verbosity : Verbosity) : List Char :=
  let header : List Char :=
    if verbosity = .full ∧ skill ≠ [] ∧ model ≠ [] then
      getModelEmoji model ++ str " **" ++ model ++ str "** | 🎯 **" ++ skill ++ str "**\n\n"
    else if verbosity = .medium ∧ model ≠ [] then
      getModelEmoji model ++ str " " ++ model
        ++ (if skill ≠ [] then str " | " ++ skill else []) ++ str "\n\n"
    else []
  let metricsPart : List Char :=
    match verbosity, metricsData with
    | .full, some m => formatMetricsDetails m ++ str "\n\n"
    | .medium, some m => str "⏱️ " ++ (toString m.total).data ++ str "ms\n\n"
    | _, _ => []
  let hint : List Char := if verbosity = .full then hintLine else []
  header ++ metricsPart ++ responseText ++ hint

/-- The world the reaction handler mutates: the metadata store, the current
text of each already-sent message (`editMessageText`), the reaction set
offered on each message (`setMessageReaction`) and the transcript of new
outbound messages (`sendMessage`), in send order. -/
structure BotState where
  store : Store
  messageTexts : List (ℕ × List Char)
  messageReactions : List (ℕ × List (List Char))
  sentMessages : List (ℤ × List Char)
deriving DecidableEq

/-- `changeVerbosity` of reaction-handler.js: re-render the stored response
(`originalResponse || responseText`) at the new verbosity, edit the message
in place, store the new verbosity, and offer the other verbosity toggles. -/
def changeVerbosity (st : BotState) (msgId : ℕ) (emoji : List Char) (md : MsgMeta) :
    BotState :=
  match getVerbosityFromEmoji emoji with
  | none => st
  | some v =>
      let newText := formatResponseWithVerbosity
        (if md.originalResponse ≠ [] then md.originalResponse else md.responseText)
        md.skill md.model md.metrics md.modelExplanation md.complexityScore v
      let st1 := { st with messageTexts := mapSet st.messageTexts msgId newText }
      let st2 := { st1 with
        store := (storeUpdate st1.store msgId (fun r => { r with verbosity := v })).2 }
      { st2 with
        messageReactions := mapSet st2.messageReactions msgId (getReactionsForVerbosity v) }

/-- The fixed note sent by the (intentionally incomplete) retry path. -/
def retryNote : List Char :=
  str "💡 *Note*: Full retry support requires orchestrator integration.\n\nPlease send your message again with \"smart model\" hint if needed."

/-- `retryWithSmartModel` of reaction-handler.js: a no-op message when the
stored model is already the smart one, else a pending-retry flag is recorded
and the user is told to resend. -/
def retryWithSmartModel (st : BotState) (msgId : ℕ) (md : MsgMeta) : BotState :=
  if md.model ≠ [] ∧ jsIncludes (jsToLower md.model) (str "sonnet") then
    { st with sentMessages := st.sentMessages
        ++ [(md.chatId, str "🧠 Already using the smart model (" ++ md.model ++ str ").")] }
  else
    let st1 := { st with sentMessages := st.sentMessages
        ++ [(md.chatId, str "🔄 Retrying with smart model...")] }
    let st2 := { st1 with store := (storeUpdate st1.store msgId
        (fun r => { r with pendingRetry := true, forceModel := str "smart" })).2 }
    { st2 with sentMessages := st2.sentMessages ++ [(md.chatId, retryNote)] }

/-- The explanation message composed by `explainReasoning` (the complexity
line appears whenever the score is not null/undefined, including 0; a falsy
`modelExplanation.reason` renders as `N/A`). -/
def explainText (md : MsgMeta) : List Char :=
  str "🤔 **Why this response?**\n\n"
  ++ (if md.skill ≠ [] then str "🎯 **Skill**: " ++ md.skill ++ str "\n" else [])
  ++ (if md.model ≠ [] then getModelEmoji md.model ++ str " **Model**: " ++ md.model ++ str "\n" else [])
  ++ (match md.complexityScore with
      | some c => str "📊 **Complexity Score**: " ++ (toString c).data ++ str "/3\n"
      | none => [])
  ++ (match md.modelExplanation with
      | some r => str "\n💭 **Reasoning**: " ++ (if r ≠ [] then r else str "N/A") ++ str "\n"
      | none => [])
  ++ str "\nReact with 📊 for detailed timing metrics."

/-- The message composed by `showFullMetrics`. -/
def metricsMessageText (md : MsgMeta) : List Char :=
  str "📊 **Detailed Metrics**\n\n"
  ++ (if md.skill ≠ [] then str "🎯 Skill: " ++ md.skill ++ str "\n" else [])
  ++ (if md.model ≠ [] then getModelEmoji md.model ++ str " Model: " ++ md.model ++ str "\n" else [])
  ++ str "\n"
  ++ (match md.metrics with
      | some m => formatMetricsDetails m
      | none => str "No detailed metrics available for this message.")

/-- `handleUserFeedback` of reaction-handler.js: acknowledge, and record the
feedback emoji on the metadata record. -/
def handleUserFeedback (st : BotState) (emoji : List Char) (msgId : ℕ) (md : MsgMeta) :
    BotState :=
  let st1 := { st with sentMessages := st.sentMessages ++ [(md.chatId,
      if emoji = str "👍" then str "✅ Thanks for the feedback!"
      else str "📝 Thanks for the feedback! You can react with 🧠 to retry with a smarter model.")] }
  { st1 with store := (storeUpdate st1.store msgId (fun r => { r with userFeedback := emoji })).2 }

/-- `handleReaction` of reaction-handler.js: extract the emoji (absent when
the new reaction is not of kind emoji), look the message id up in the
metadata store (evicting lazily), return silently when no metadata is found,
else dispatch on the emoji category. -/
def handleReaction (now : ℕ) (st : BotState) (msgId : ℕ) (emojiOpt : Option (List Char)) :
    BotState :=
  match emojiOpt with
  | none => st
  | some emoji =>
      let got := storeGet st.store msgId now
      let st1 := { st with store := got.2 }
      match got.1 with
      | none => st1
      | some md =>
          if isVerbosityEmoji emoji then changeVerbosity st1 msgId emoji md
          else if emoji = str "🧠" then retryWithSmartModel st1 msgId md
          else if emoji = str "🤔" then
            { st1 with sentMessages := st1.sentMessages ++ [(md.chatId, explainText md)] }
          else if emoji = str "📊" then
            { st1 with sentMessages := st1.sentMessages ++ [(md.chatId, metricsMessageText md)] }
          else if emoji = str "👍" ∨ emoji = str "👎" then handleUserFeedback st1 emoji msgId md
          else st1

/-- A pending interactive prompt, as stored by `promptUser`. -/
structure PromptData where
  chatId : ℤ
  question : List Char
  options : List PromptOption
  createdAt : ℕ
  expiresAt : ℕ
  ctx : List (List Char × List Char)
deriving DecidableEq

/-- What `handleResponse` returns on a successful selection. -/
structure PromptSelection where
  question : List Char
  answer : List Char
  action : List Char
  context : List (List Char × List Char)
deriving DecidableEq

/-- The state owned by `UserPromptHandler`: its pending-prompt map plus the
shared message-metadata store it marks answered prompts in. -/
structure PromptHandlerState where
  pendingPrompts : List (ℕ × PromptData)
  metaStore : Store
deriving DecidableEq

/-- `UserPromptHandler.handleResponse`: unknown id gives `null`; an expired
record is discarded and `null` returned; a non-matching emoji leaves the
record pending; a matching emoji consumes the record, marks the metadata
record answered, and returns the selected option. -/
def handleResponse (now : ℕ) (h : PromptHandlerState) (msgId : ℕ) (emoji : List Char) :
    Option PromptSelection × PromptHandlerState :=
  match mapGet h.pendingPrompts msgId with
  | none => (none, h)
  | some pd =>
      if now > pd.expiresAt then
        (none, { h with pendingPrompts := mapDelete h.pendingPrompts msgId })
      else
        match pd.options.find? (fun o => o.emoji == emoji) with
        | none => (none, h)
        | some opt =>
            let h1 := { h with pendingPrompts := mapDelete h.pendingPrompts msgId }
            let h2 := { h1 with metaStore := (storeUpdate h1.metaStore msgId
                (fun r => { r with promptAnswered := true, selectedOption := some opt })).2 }
            (some ⟨pd.question, opt.label, opt.action, pd.ctx⟩, h2)

/-- `UserPromptHandler.cleanup`: drop every pending prompt past its expiry. -/
def promptCleanup (now : ℕ) (h : PromptHandlerState) : PromptHandlerState :=
  { h with pendingPrompts := h.pendingPrompts.filter (fun p => !(now > p.2.expiresAt)) }

end Clawd.Bot

namespace Clawd.Sessions

open Clawd

/-- One conversation turn (`{role, content, timestamp}`). -/
structure Turn where
  role : List Char
  content : List Char
  timestamp : List Char
deriving DecidableEq

/-- An in-memory session (`{history, context, turnCount, lastActive}`). -/
structure SessionData where
  history : List Turn
  context : List (List Char × List Char)
  turnCount : ℕ
  lastActive : List Char
deriving DecidableEq

/-- A session as parsed back from the persisted JSON object: every field may
be absent (`undefined`/`null` in the parsed object). -/
structure PersistedSession where
  history : Option (List Turn)
  context : Option (List (List Char × List Char))
  turnCount : Option ℕ
  lastActive : Option (List Char)
deriving DecidableEq

/-- The in-memory session table, keyed by user id in insertion order. -/
abbrev SessionTable : Type := List (List Char × SessionData)

/-- `saveSessions`: the session table is serialised entry by entry into a
plain JSON object mapping user id to the session record (all four fields are
defined, so all four keys are written). The JSON text round trip itself is
the runtime's and is modelled as exact. -/
def saveSessions (m : SessionTable) : List (List Char × PersistedSession) :=
  m.map (fun p => (p.1, ⟨some p.2.history, some p.2.context, some p.2.turnCount, some p.2.lastActive⟩))

/-- `loadSessions`: rebuild the table from the parsed object, defaulting each
field with `||`. A present empty history/context is a truthy array/object and
is kept; a present `turnCount` of 0 is falsy but the default is the same 0; a
present empty `lastActive` string is falsy and replaced by the current time
(`nowIso`). -/
def loadSessions (parsed : List (List Char × PersistedSession)) (nowIso : List Char) :
    SessionTable :=
  parsed.map (fun p => (p.1,
    { history := p.2.history.getD []
    , context := p.2.context.getD []
    , turnCount := p.2.turnCount.getD 0
    , lastActive := match p.2.lastActive with
        | some s => if s ≠ [] then s else nowIso
        | none => nowIso }))

end Clawd.Sessions

namespace Clawd.Bot

/-- A concrete metadata record used to evaluate the theorems on an input. -/
def sampleMeta : MsgMeta :=
  { chatId := 5
  , originalMessage := Clawd.str "hello"
  , originalResponse := []
  , responseText := Clawd.str "hi there"
  , skill := Clawd.str "general"
  , model := Clawd.str "Haiku (Fast)"
  , metrics := none
  , modelExplanation := none
  , complexityScore := none
  , verbosity := .medium
  , retentionMs := none
  , pendingRetry := false
  , forceModel := []
  , userFeedback := []
  , promptAnswered := false
  , selectedOption := none
  , createdAt := 0
  , expiresAt := 0 }

/-- A concrete pending prompt used to evaluate the theorems on an input. -/
def samplePrompt : PromptData :=
  { chatId := 5
  , question := Clawd.str "Proceed?"
  , options :=
      [ ⟨Clawd.str "Yes", Clawd.str "👍", Clawd.str "yes", []⟩
      , ⟨Clawd.str "No", Clawd.str "👎", Clawd.str "no", []⟩ ]
  , createdAt := 0
  , expiresAt := 300000
  , ctx := [] }

/-- A concrete bot state with one live metadata record under message id 1. -/
def sampleBotState : BotState :=
  { store := [(1, { sampleMeta with expiresAt := 100 })]
  , messageTexts := []
  , messageReactions := []
  , sentMessages := [] }

end Clawd.Bot

namespace Clawd.Metrics

/-- A concrete partially-marked collector state used to evaluate theorems:
received at 10, API call from 100 to 250, response never sent. -/
def sampleTimings : Timings :=
  ⟨some 10, none, none, none, none, none, none, none, some 100, some 250, none, none, none⟩

/-- A concrete empty flow record used to evaluate theorems. -/
def sampleFlow : Flow := ⟨none, none, none, none, [], false, none⟩

end Clawd.Metrics

namespace Clawd.JsMap

theorem find?_replace {α : Type} (k : ℕ) (v : α) (m : List (ℕ × α)) :
    (m.map (fun p => if p.1 == k then (k, v) else p)).find? (fun p => p.1 == k)
      = (m.find? (fun p => p.1 == k)).map (fun _ => (k, v)) := by
  induction m with
  | nil => rfl
  | cons q t ih =>
      rw [List.map_cons]
      by_cases hq : (q.1 == k) = true
      · rw [if_pos hq,
          @List.find?_cons_of_pos _ (fun p => p.1 == k) (k, v) _ (by simp),
          @List.find?_cons_of_pos _ (fun p => p.1 == k) q _ hq]
        simp
      · rw [if_neg hq,
          @List.find?_cons_of_neg _ (fun p => p.1 == k) q _ hq,
          @List.find?_cons_of_neg _ (fun p => p.1 == k) q _ hq, ih]

theorem find?_append_of_none {α : Type} {f : α → Bool} {m l : List α}
    (h : m.find? f = none) : (m ++ l).find? f = l.find? f := by
  induction m with
  | nil => simp
  | cons q t ih =>
      rw [List.find?] at h
      cases hq : f q with
      | true => rw [hq] at h; exact absurd h (by simp)
      | false =>
          rw [hq] at h
          simpa [List.find?, hq] using ih h

theorem mapGet_mapSet_self {α : Type} (m : List (ℕ × α)) (k : ℕ) (v : α) :
    mapGet (mapSet m k v) k = some v := by
  unfold mapGet mapSet
  by_cases h : (m.find? (fun p => p.1 == k)).isSome
  · rw [if_pos h, find?_replace]
    cases hf : m.find? (fun p => p.1 == k) with
    | none => rw [hf] at h; simp at h
    | some p => simp
  · rw [if_neg h]
    cases hf : m.find? (fun p => p.1 == k) with
    | none => rw [find?_append_of_none hf]; simp
    | some p => rw [hf] at h; simp at h

theorem mapGet_mapDelete_self {α : Type} (m : List (ℕ × α)) (k : ℕ) :
    mapGet (mapDelete m k) k = none := by
  unfold mapGet mapDelete
  induction m with
  | nil => simp
  | cons q t ih =>
      by_cases hq : q.1 = k
      · simpa [hq] using ih
      · simpa [List.find?, hq] using ih

theorem mapSet_mapSet_self {α : Type} (m : List (ℕ × α)) (k : ℕ) (v : α) :
    mapSet (mapSet m k v) k v = mapSet m k v := by
  unfold mapSet
  by_cases h : (m.find? (fun p => p.1 == k)).isSome
  · rw [if_pos h]
    have h2 : ((m.map (fun p => if p.1 == k then (k, v) else p)).find?
        (fun p => p.1 == k)).isSome := by
      rw [find?_replace]
      cases hf : m.find? (fun p => p.1 == k) with
      | none => rw [hf] at h; simp at h
      | some p => simp
    rw [if_pos h2, List.map_map]
    refine List.map_congr_left ?_
    intro p _
    by_cases hp : p.1 = k <;> simp [Function.comp, hp]
  · rw [if_neg h]
    have hf : m.find? (fun p => p.1 == k) = none := by
      cases hf : m.find? (fun p => p.1 == k) with
      | none => rfl
      | some p => rw [hf] at h; simp at h
    have h2 : ((m ++ [(k, v)]).find? (fun p => p.1 == k)).isSome := by
      rw [find?_append_of_none hf]; simp
    rw [if_pos h2]
    have hall := List.find?_eq_none.mp hf
    rw [List.map_append]
    congr 1
    · calc m.map (fun p => if p.1 == k then (k, v) else p)
          = m.map id := by
            refine List.map_congr_left ?_
            intro p hp
            have hne : ¬ (p.1 == k) = true := hall p hp
            simp [hne]
        _ = m := List.map_id m
    · simp

end Clawd.JsMap

namespace Clawd.Bot

open Clawd Clawd.JsMap

/-- C2: for every message id and metadata record, a `get` on the Message
Metadata Store within the retention window after `store` returns the stored
record; a `get` after the retention window has elapsed returns absent and
deletes the entry (read-triggered eviction); and every subsequent `get` on
that id also returns absent — an expired record is never resurrected. -/
theorem metadata_ttl_spec (st : Store) (id : ℕ) (md : MsgMeta) (t0 t1 t2 : ℕ)
    (hid : id ≠ 0) :
    (t1 ≤ t0 + retentionOf md →
      (storeGet (storeStore st id md t0).2 id t1).1
        = some { md with createdAt := t0, expiresAt := t0 + retentionOf md }) ∧
    (t0 + retentionOf md < t1 →
      (storeGet (storeStore st id md t0).2 id t1).1 = none ∧
      mapGet (storeGet (storeStore st id md t0).2 id t1).2 id = none ∧
      (storeGet (storeGet (storeStore st id md t0).2 id t1).2 id t2).1 = none) := by
  have hset : mapGet (storeStore st id md t0).2 id
      = some { md with createdAt := t0, expiresAt := t0 + retentionOf md } := by
    unfold storeStore
    rw [if_neg hid]
    exact mapGet_mapSet_self st id _
  refine ⟨?_, ?_⟩
  · intro h1
    have hnot : ¬ (t1 > t0 + retentionOf md) := by omega
    simp [storeGet, hset, hnot]
  · intro h1
    refine ⟨?_, ?_, ?_⟩
    · simp [storeGet, hset, h1]
    · simp [storeGet, hset, h1, mapGet_mapDelete_self]
    · simp [storeGet, hset, h1, mapGet_mapDelete_self]

/-- Witness for C2: store at time 0 under id 1, read back at time 100
(within the hour), then observe absence after a read at expiry + 1. -/
theorem metadata_ttl_spec_witness :
    (storeGet (storeStore [] 1 sampleMeta 0).2 1 100).1
      = some { sampleMeta with createdAt := 0, expiresAt := 3600000 } ∧
    (storeGet (storeStore [] 1 sampleMeta 0).2 1 3600001).1 = none := by
  refine ⟨?_, ?_⟩
  · have h := (metadata_ttl_spec [] 1 sampleMeta 0 100 0 (by decide)).1 (by decide)
    simpa [retentionOf, sampleMeta, defaultRetentionMs] using h
  · exact ((metadata_ttl_spec [] 1 sampleMeta 0 3600001 0 (by decide)).2 (by decide)).1

/-- C8: a pending prompt record is consumed exactly once — the first signal
event matching one of its option emojis removes the record and returns the
selected option; any later event for that id (the record now absent) returns
`null` with no state change; an event after expiry returns `null` and
discards the record; a consumed or expired record is never reused. -/
theorem prompt_consumed_once (now now2 : ℕ) (h : PromptHandlerState) (msgId : ℕ)
    (emoji : List Char) (pd : PromptData)
    (hpd : mapGet h.pendingPrompts msgId = some pd) :
    (∀ opt, now ≤ pd.expiresAt →
      pd.options.find? (fun o => o.emoji == emoji) = some opt →
      (handleResponse now h msgId emoji).1
          = some ⟨pd.question, opt.label, opt.action, pd.ctx⟩ ∧
      mapGet (handleResponse now h msgId emoji).2.pendingPrompts msgId = none) ∧
    (pd.expiresAt < now →
      (handleResponse now h msgId emoji).1 = none ∧
      mapGet (handleResponse now h msgId emoji).2.pendingPrompts msgId = none) ∧
    (∀ (h2 : PromptHandlerState) (e2 : List Char),
      mapGet h2.pendingPrompts msgId = none →
      handleResponse now2 h2 msgId e2 = (none, h2)) := by
  refine ⟨?_, ?_, ?_⟩
  · intro opt hle hfind
    have hnot : ¬ (now > pd.expiresAt) := by omega
    refine ⟨?_, ?_⟩
    · simp [handleResponse, hpd, hnot, hfind]
    · simp [handleResponse, hpd, hnot, hfind, mapGet_mapDelete_self]
  · intro hgt
    refine ⟨?_, ?_⟩
    · simp [handleResponse, hpd, hgt]
    · simp [handleResponse, hpd, hgt, mapGet_mapDelete_self]
  · intro h2 e2 hnone
    simp [handleResponse, hnone]

/-- Witness for C8: a yes/no prompt under id 7 is consumed by a 👍 event at
time 10, and redelivering the same event afterwards returns `null` with the
state unchanged. -/
theorem prompt_consumed_once_witness :
    (handleResponse 10 ⟨[(7, samplePrompt)], []⟩ 7 (Clawd.str "👍")).1
      = some ⟨Clawd.str "Proceed?", Clawd.str "Yes", Clawd.str "yes", []⟩ ∧
    handleResponse 20 (handleResponse 10 ⟨[(7, samplePrompt)], []⟩ 7 (Clawd.str "👍")).2
        7 (Clawd.str "👍")
      = (none, (handleResponse 10 ⟨[(7, samplePrompt)], []⟩ 7 (Clawd.str "👍")).2) := by
  have h := prompt_consumed_once 10 20 ⟨[(7, samplePrompt)], []⟩ 7 (Clawd.str "👍")
      samplePrompt (by rfl)
  have hy := h.1 ⟨Clawd.str "Yes", Clawd.str "👍", Clawd.str "yes", []⟩ (by decide) (by rfl)
  refine ⟨?_, ?_⟩
  · simpa [samplePrompt] using hy.1
  · exact h.2.2 _ _ hy.2

end Clawd.Bot

namespace Clawd.Sessions

/-- C4: session persistence round-trips — saving the in-memory session table
and reloading it yields, user id by user id in the same order, a session
with an identical turn history and an identical turn counter. -/
theorem session_roundtrip (m : SessionTable) (nowIso : List Char) :
    (loadSessions (saveSessions m) nowIso).map (fun p => (p.1, p.2.history, p.2.turnCount))
      = m.map (fun p => (p.1, p.2.history, p.2.turnCount)) := by
  unfold loadSessions saveSessions
  rw [List.map_map, List.map_map]
  rfl

end Clawd.Sessions

namespace Clawd.Metrics

open Clawd

theorem getDuration_none_iff (s e : Option ℕ) :
    getDuration s e = none ↔ (optTruthy s = false ∨ optTruthy e = false) := by
  unfold getDuration
  cases hs : optTruthy s <;> cases he : optTruthy e <;> simp

theorem getDuration_some_of_pos (a b : ℕ) (ha : 0 < a) (hb : 0 < b) :
    getDuration (some a) (some b) = some ((b : ℤ) - a) := by
  simp [getDuration, optTruthy, jsNum, ha.ne', hb.ne']

/-- C9: `getBreakdown` is a total function of the marked checkpoints (it
cannot fail, whichever checkpoints were never marked): every adjacent-pair
differential equals `getDuration` of its two checkpoints, a differential is
omitted (absent) exactly when one of its checkpoints is unmarked (or holds
the falsy timestamp 0), a differential with both checkpoints marked is the
end minus the start, and the total is the end checkpoint minus the start
checkpoint, or the current time minus the start checkpoint when the end
checkpoint is absent. -/
theorem breakdown_safe (now : ℕ) (t : Timings) (f : Flow) (r : ℕ)
    (hr : t.receivedAt = some r) :
    ((getBreakdown now t f).fastPathCheck = getDuration t.receivedAt t.fastPathCheck
      ∧ (getBreakdown now t f).acknowledgment = getDuration t.fastPathCheck t.acknowledgmentSent
      ∧ (getBreakdown now t f).preOrchestrator = getDuration t.acknowledgmentSent t.orchestratorStart
      ∧ (getBreakdown now t f).skillDetection = getDuration t.orchestratorStart t.skillDetection
      ∧ (getBreakdown now t f).modelSelection = getDuration t.skillDetection t.modelSelection
      ∧ (getBreakdown now t f).promptBuilding = getDuration t.modelSelection t.promptBuilding
      ∧ (getBreakdown now t f).apiCall = getDuration t.apiCallStart t.apiCallEnd
      ∧ (getBreakdown now t f).formatting = getDuration t.responseFormatStart t.responseFormatEnd
      ∧ (getBreakdown now t f).postProcessing = getDuration t.responseFormatEnd t.responseSent) ∧
    (∀ s e : Option ℕ,
      getDuration s e = none ↔ (optTruthy s = false ∨ optTruthy e = false)) ∧
    (∀ a b : ℕ, 0 < a → 0 < b → getDuration (some a) (some b) = some ((b : ℤ) - a)) ∧
    (t.responseSent = none → (getBreakdown now t f).total = (now : ℤ) - r) ∧
    (∀ e, t.responseSent = some e → 0 < e → (getBreakdown now t f).total = (e : ℤ) - r) := by
  refine ⟨⟨rfl, rfl, rfl, rfl, rfl, rfl, rfl, rfl, rfl⟩, getDuration_none_iff, ?_, ?_, ?_⟩
  · intro a b ha hb
    exact getDuration_some_of_pos a b ha hb
  · intro hnone
    simp [getBreakdown, hnone, hr, optTruthy, jsNum]
  · intro e he hepos
    simp [getBreakdown, he, hr, optTruthy, jsNum, hepos.ne']

/-- Witness for C9 on a collector that was received at 10, ran an API call
from 100 to 250 and never sent a response, read at time 1000. -/
theorem breakdown_safe_witness :
    (getBreakdown 1000 sampleTimings sampleFlow).total = (1000 : ℤ) - 10 ∧
    (getBreakdown 1000 sampleTimings sampleFlow).apiCall
      = getDuration sampleTimings.apiCallStart sampleTimings.apiCallEnd ∧
    getDuration (some 100) (some 250) = some ((250 : ℤ) - 100) ∧
    getDuration none (some 250) = none := by
  have h := breakdown_safe 1000 sampleTimings sampleFlow 10 rfl
  refine ⟨h.2.2.2.1 rfl, h.1.2.2.2.2.2.2.1, h.2.2.1 100 250 (by decide) (by decide), ?_⟩
  · exact (h.2.1 none (some 250)).mpr (Or.inl rfl)

end Clawd.Metrics

namespace Clawd.SkillRouter

open Clawd

theorem runningMax_cons (b : ℚ) (p : List Char × ℚ) (t : List (List Char × ℚ)) :
    runningMax b (p :: t) = runningMax (max b p.2) t := rfl

theorem runningMax_le_self (b : ℚ) (l : List (List Char × ℚ)) : b ≤ runningMax b l := by
  induction l generalizing b with
  | nil => exact le_refl b
  | cons p t ih => exact le_trans (le_max_left b p.2) (ih (max b p.2))

theorem snd_le_runningMax (b : ℚ) (l : List (List Char × ℚ)) (q : List Char × ℚ)
    (hq : q ∈ l) : q.2 ≤ runningMax b l := by
  induction l generalizing b with
  | nil => cases hq
  | cons p t ih =>
      rw [runningMax_cons]
      rcases List.mem_cons.mp hq with h | h
      · subst h
        exact le_trans (le_max_right b q.2) (runningMax_le_self _ t)
      · exact ih (max b p.2) h

theorem runningMax_choice (b : ℚ) (l : List (List Char × ℚ)) :
    runningMax b l = b ∨ ∃ q ∈ l, runningMax b l = q.2 := by
  induction l generalizing b with
  | nil => left; rfl
  | cons p t ih =>
      rw [runningMax_cons]
      rcases ih (max b p.2) with h | ⟨q, hq, hval⟩
      · rcases max_choice b p.2 with hm | hm
        · left; rw [h, hm]
        · right; exact ⟨p, List.mem_cons_self p t, by rw [h, hm]⟩
      · right; exact ⟨q, List.mem_cons_of_mem p hq, hval⟩

theorem foldl_detectStep_snd (l : List (List Char × ℚ)) (cur : Option (List Char)) (b : ℚ) :
    (List.foldl detectStep (cur, b) l).2 = runningMax b l := by
  induction l generalizing cur b with
  | nil => rfl
  | cons p t ih =>
      rw [List.foldl_cons, runningMax_cons]
      show (List.foldl detectStep (if p.2 > b then (some p.1, p.2) else (cur, b)) t).2
        = runningMax (max b p.2) t
      by_cases hp : p.2 > b
      · rw [if_pos hp, max_eq_right hp.le]
        exact ih (some p.1) p.2
      · rw [if_neg hp, max_eq_left (le_of_not_lt hp)]
        exact ih cur b

theorem foldl_detectStep_no_update (l : List (List Char × ℚ)) (cur : Option (List Char))
    (b : ℚ) (h : ∀ q ∈ l, q.2 ≤ b) : List.foldl detectStep (cur, b) l = (cur, b) := by
  induction l with
  | nil => rfl
  | cons p t ih =>
      rw [List.foldl_cons]
      show List.foldl detectStep (if p.2 > b then (some p.1, p.2) else (cur, b)) t = (cur, b)
      rw [if_neg (not_lt.mpr (h p (List.mem_cons_self p t)))]
      exact ih (fun q hq => h q (List.mem_cons_of_mem p hq))

theorem firstMax_cons (m : ℚ) (p : List Char × ℚ) (t : List (List Char × ℚ)) :
    firstMax m (p :: t) = if p.2 = m then some p else firstMax m t := rfl

theorem foldl_detectStep_fst (l : List (List Char × ℚ)) (cur : Option (List Char)) (b : ℚ)
    (h : b < runningMax b l) :
    (List.foldl detectStep (cur, b) l).1 = firstArgmax (runningMax b l) l := by
  unfold firstArgmax
  induction l generalizing cur b with
  | nil => exact absurd h (lt_irrefl b)
  | cons p t ih =>
      rw [runningMax_cons] at h ⊢
      rw [List.foldl_cons]
      show (List.foldl detectStep (if p.2 > b then (some p.1, p.2) else (cur, b)) t).1
        = (firstMax (runningMax (max b p.2) t) (p :: t)).map (fun p => p.1)
      by_cases hp : p.2 > b
      · have hmx : max b p.2 = p.2 := max_eq_right hp.le
        rw [if_pos hp, hmx]
        by_cases h2 : p.2 < runningMax p.2 t
        · rw [ih (some p.1) p.2 h2, firstMax_cons, if_neg (ne_of_lt h2)]
        · have heq : runningMax p.2 t = p.2 :=
            le_antisymm (le_of_not_lt h2) (runningMax_le_self p.2 t)
          rw [foldl_detectStep_no_update t (some p.1) p.2
            (fun q hq => heq ▸ snd_le_runningMax p.2 t q hq)]
          rw [heq, firstMax_cons, if_pos rfl]
          rfl
      · have hmx : max b p.2 = b := max_eq_left (le_of_not_lt hp)
        rw [hmx] at h ⊢
        rw [if_neg hp, ih cur b h, firstMax_cons,
          if_neg (ne_of_lt (lt_of_le_of_lt (le_of_not_lt hp) h))]

theorem detectSkill_characterization (message : List Char) :
    detectSkill message =
      if maxScore message = 0 then ⟨str "general", 0⟩
      else ⟨(firstArgmax (maxScore message) (skillScores message)).getD (str "general"),
            maxScore message⟩ := by
  have hsnd := foldl_detectStep_snd (skillScores message) none 0
  by_cases h0 : maxScore message = 0
  · rw [if_pos h0]
    unfold detectSkill detectFinish
    rw [hsnd]
    have h0' : runningMax 0 (skillScores message) = 0 := h0
    rw [h0']
    simp
  · rw [if_neg h0]
    have hpos : (0 : ℚ) < maxScore message :=
      lt_of_le_of_ne (runningMax_le_self 0 (skillScores message)) (Ne.symm h0)
    have hpos' : runningMax 0 (skillScores message) > 0 := hpos
    have hfst := foldl_detectStep_fst (skillScores message) none 0 hpos'
    unfold detectSkill detectFinish
    rw [hsnd, hfst, if_pos hpos']
    rfl

end Clawd.SkillRouter

namespace Clawd.SkillRouter

open Clawd

/-- C1: for every input text, `detectSkill` returns the skill whose cumulative
keyword score is strictly highest, with that score as the confidence; on a
tie the earliest-registered skill in the table's iteration order wins
(`firstArgmax`); and when every skill's score is 0, the default skill
`general` is returned with confidence 0. -/
theorem detectSkill_spec (message : List Char) :
    detectSkill message =
      if maxScore message = 0 then ⟨str "general", 0⟩
      else ⟨(firstArgmax (maxScore message) (skillScores message)).getD (str "general"),
            maxScore message⟩ :=
  detectSkill_characterization message

theorem foldl_keywordFold_eq (lower : List Char) (kws : List (List Char)) (c : ℚ)
    (hk : ∀ kw ∈ kws, jsToLower kw = kw) :
    kws.foldl (keywordFold lower) c = c + (3/2) * matchCount lower kws := by
  induction kws generalizing c with
  | nil => simp [matchCount]
  | cons kw t ih =>
      rw [List.foldl_cons]
      have hkw : jsToLower kw = kw := hk kw (List.mem_cons_self kw t)
      have ht : ∀ kw2 ∈ t, jsToLower kw2 = kw2 :=
        fun kw2 h2 => hk kw2 (List.mem_cons_of_mem kw h2)
      show List.foldl (keywordFold lower)
          (if jsIncludes lower kw then
            c + 1 + (if jsIncludes lower (jsToLower kw) then 1/2 else 0) else c) t
        = c + (3/2) * matchCount lower (kw :: t)
      by_cases hin : jsIncludes lower kw = true
      · rw [if_pos hin, hkw, if_pos hin, ih _ ht]
        have hc : matchCount lower (kw :: t) = matchCount lower t + 1 := by
          unfold matchCount
          rw [List.countP_cons]
          simp [hin]
        rw [hc]
        push_cast
        ring
      · rw [if_neg hin, ih _ ht]
        have hc : matchCount lower (kw :: t) = matchCount lower t := by
          unfold matchCount
          rw [List.countP_cons]
          simp [hin]
        rw [hc]

theorem skillScore_eq_count (lower : List Char) (kws : List (List Char))
    (hk : ∀ kw ∈ kws, jsToLower kw = kw) :
    skillScore lower kws = (3/2) * matchCount lower kws := by
  unfold skillScore
  rw [foldl_keywordFold_eq lower kws 0 hk, zero_add]

theorem skills_keywords_lowercase :
    ∀ s ∈ skills, ∀ kw ∈ s.keywords, jsToLower kw = kw := by decide

theorem skills_ids_nodup : (skills.map (fun s => s.id)).Nodup := by decide

theorem firstMax_of_exists (m : ℚ) (l : List (List Char × ℚ))
    (h : ∃ q ∈ l, q.2 = m) : ∃ p, firstMax m l = some p ∧ p.2 = m := by
  induction l with
  | nil => rcases h with ⟨q, hq, _⟩; cases hq
  | cons p t ih =>
      by_cases hp : p.2 = m
      · exact ⟨p, by rw [firstMax_cons, if_pos hp], hp⟩
      · rcases h with ⟨q, hq, hqm⟩
        rcases List.mem_cons.mp hq with hqp | hqt
        · exact absurd (hqp ▸ hqm) hp
        · obtain ⟨p0, h1, h2⟩ := ih ⟨q, hqt, hqm⟩
          exact ⟨p0, by rw [firstMax_cons, if_neg hp]; exact h1, h2⟩

theorem firstMax_lookup (lower : List Char) (l : List Skill) (m : ℚ)
    (id : List Char) (sc : ℚ) (hnd : (l.map (fun s => s.id)).Nodup)
    (h : firstMax m (l.map (fun s => (s.id, skillScore lower s.keywords))) = some (id, sc)) :
    ∃ s0, s0 ∈ l ∧ l.find? (fun s => s.id == id) = some s0 ∧ s0.id = id
      ∧ skillScore lower s0.keywords = sc ∧ sc = m := by
  induction l with
  | nil => simp [firstMax] at h
  | cons s t ih =>
      rw [List.map_cons, firstMax_cons] at h
      by_cases hsc : skillScore lower s.keywords = m
      · rw [if_pos hsc] at h
        have hpair := Option.some.inj h
        have hid : s.id = id := congrArg Prod.fst hpair
        have hsc2 : skillScore lower s.keywords = sc := congrArg Prod.snd hpair
        refine ⟨s, List.mem_cons_self s t, ?_, hid, hsc2, hsc2 ▸ hsc⟩
        exact List.find?_cons_of_pos _ (by simp [hid])
      · rw [if_neg hsc] at h
        have hnd2 := List.nodup_cons.mp hnd
        obtain ⟨s0, hmem, hfind, hid, hsc0, hm⟩ := ih hnd2.2 h
        refine ⟨s0, List.mem_cons_of_mem s hmem, ?_, hid, hsc0, hm⟩
        rw [List.find?_cons_of_neg]
        · exact hfind
        · simp only [beq_iff_eq]
          intro heq
          refine absurd ?_ hnd2.1
          simp only [List.mem_map]
          exact ⟨s0, hmem, by rw [hid, heq]⟩

set_option maxRecDepth 8192 in
/-- C10: for every input text, the confidence returned by `detectSkill`
equals exactly 1.5 times the number of the winning skill's keywords that
occur as substrings of the lowercased text — the per-keyword bonus branch is
always taken because every table keyword is already lowercase, so its
condition repeats the match test — and a nonzero confidence is therefore a
positive multiple of 1.5, never the plain match count. -/
theorem confidence_is_multiple (message : List Char) :
    (detectSkill message).confidence
        = (3/2) * matchCount (jsToLower message) (keywordsOf (detectSkill message).skill) ∧
    ((detectSkill message).confidence ≠ 0 →
      ∃ k : ℕ, 0 < k ∧ (detectSkill message).confidence = (3/2) * k) := by
  have hmain : (detectSkill message).confidence
      = (3/2) * matchCount (jsToLower message) (keywordsOf (detectSkill message).skill) := by
    by_cases h0 : maxScore message = 0
    · rw [detectSkill_characterization message, if_pos h0]
      show (0 : ℚ) = (3/2) * matchCount (jsToLower message) (keywordsOf (str "general"))
      have hg : keywordsOf (str "general") = [] := by decide
      rw [hg]
      simp [matchCount]
    · have hpos : (0 : ℚ) < maxScore message :=
        lt_of_le_of_ne (runningMax_le_self 0 (skillScores message)) (Ne.symm h0)
      have hex : ∃ q ∈ skillScores message, q.2 = maxScore message := by
        rcases runningMax_choice 0 (skillScores message) with hz | ⟨q, hq, hval⟩
        · exact absurd hz h0
        · exact ⟨q, hq, hval.symm⟩
      obtain ⟨p, hfm, hpm⟩ := firstMax_of_exists (maxScore message) (skillScores message) hex
      obtain ⟨id, sc⟩ := p
      obtain ⟨s0, hmem, hfind, hid, hsc0, hscm⟩ :=
        firstMax_lookup (jsToLower message) skills (maxScore message) id sc
          skills_ids_nodup hfm
      have hfa : firstArgmax (maxScore message) (skillScores message) = some id := by
        unfold firstArgmax
        rw [hfm]
        rfl
      rw [detectSkill_characterization message, if_neg h0]
      show maxScore message = (3/2) * matchCount (jsToLower message)
        (keywordsOf ((firstArgmax (maxScore message) (skillScores message)).getD (str "general")))
      rw [hfa]
      show maxScore message = (3/2) * matchCount (jsToLower message) (keywordsOf id)
      have hkw : keywordsOf id = s0.keywords := by
        unfold keywordsOf
        rw [hfind]
        rfl
      rw [hkw, ← hscm, ← hsc0,
        skillScore_eq_count (jsToLower message) s0.keywords (skills_keywords_lowercase s0 hmem)]
  refine ⟨hmain, fun hne =>
    ⟨matchCount (jsToLower message) (keywordsOf (detectSkill message).skill), ?_, hmain⟩⟩
  by_contra hk
  have hk0 : matchCount (jsToLower message) (keywordsOf (detectSkill message).skill) = 0 :=
    Nat.le_zero.mp (not_lt.mp hk)
  apply hne
  rw [hmain, hk0]
  simp

set_option maxRecDepth 40000 in
theorem detect_sort : detectSkill (str "sort") = ⟨str "organize", 3/2⟩ := by
  have hs : skillScores (str "sort")
      = skills.map (fun s => (s.id, (3/2 : ℚ) * matchCount (jsToLower (str "sort")) s.keywords)) := by
    unfold skillScores
    refine List.map_congr_left ?_
    intro s hmem
    rw [skillScore_eq_count _ _ (skills_keywords_lowercase s hmem)]
  have m0 : matchCount (jsToLower (str "sort"))
      [str "search", str "find", str "look up", str "google", str "web", str "information"] = 0 := by
    decide
  have m1 : matchCount (jsToLower (str "sort"))
      [str "pr", str "pull request", str "review", str "check code"] = 0 := by decide
  have m2 : matchCount (jsToLower (str "sort"))
      [str "run", str "execute", str "compile", str "test code"] = 0 := by decide
  have m3 : matchCount (jsToLower (str "sort"))
      [str "download", str "upload", str "file", str "save", str "fetch"] = 0 := by decide
  have m4 : matchCount (jsToLower (str "sort"))
      [str "scrape", str "extract", str "crawl", str "parse"] = 0 := by decide
  have m5 : matchCount (jsToLower (str "sort"))
      [str "organize", str "sort", str "categorize", str "structure"] = 1 := by decide
  have m6 : matchCount (jsToLower (str "sort"))
      [str "docker", str "container", str "deploy", str "spin up"] = 0 := by decide
  have m7 : matchCount (jsToLower (str "sort"))
      [str "speak", str "say", str "voice", str "audio", str "tts"] = 0 := by decide
  have m8 : matchCount (jsToLower (str "sort"))
      [str "create skill", str "new skill", str "add skill", str "make skill", str "skill creator"]
        = 0 := by decide
  unfold detectSkill
  rw [hs]
  simp only [skills, List.map]
  rw [m0, m1, m2, m3, m4, m5, m6, m7, m8]
  push_cast
  norm_num [List.foldl, detectStep, detectFinish]

/-- Witness for C10 on the text "sort": exactly one keyword of the winning
skill (organize) matches, so the confidence is 1.5 times 1. -/
theorem confidence_is_multiple_witness :
    (detectSkill (str "sort")).confidence
        = (3/2) * matchCount (jsToLower (str "sort"))
            (keywordsOf (detectSkill (str "sort")).skill) ∧
    ∃ k : ℕ, 0 < k ∧ (detectSkill (str "sort")).confidence = (3/2) * k :=
  ⟨(confidence_is_multiple (str "sort")).1,
   (confidence_is_multiple (str "sort")).2 (by rw [detect_sort]; norm_num)⟩

end Clawd.SkillRouter

namespace Clawd.ModelPicker

open Clawd

theorem fastModel_ne_smartModel : fastModel ≠ smartModel := fun h =>
  absurd (congrArg ModelConfig.maxTokens h) (by decide)

/-- C5: the complexity score is the additive rule floored at zero
(`analyzeTaskComplexity` is never negative); an explicit override (fast or
smart) in the context bypasses the scoring decision entirely; and without an
override the deep (smart) tier is chosen exactly when the score reaches the
fixed threshold, else the fast tier. The function is a pure Lean function of
its arguments, so determinism and absence of side effects hold by
construction. -/
theorem chooseModel_spec (message : List Char) (ctx : PickContext) :
    0 ≤ analyzeTaskComplexity message ctx ∧
    (ctx.forceModel = some (str "fast") → chooseModel message ctx = fastModel) ∧
    (ctx.forceModel = some (str "smart") → chooseModel message ctx = smartModel) ∧
    (ctx.forceModel ≠ some (str "fast") → ctx.forceModel ≠ some (str "smart") →
      (chooseModel message ctx = smartModel ↔
        complexityThreshold ≤ analyzeTaskComplexity message ctx)) := by
  refine ⟨?_, ?_, ?_, ?_⟩
  · unfold analyzeTaskComplexity
    exact le_max_left 0 _
  · intro h
    unfold chooseModel
    rw [if_pos h]
  · intro h
    unfold chooseModel
    by_cases hf : ctx.forceModel = some (str "fast")
    · exact absurd (Option.some.inj (h.symm.trans hf)) (by decide)
    · rw [if_neg hf, if_pos h]
  · intro hf hs
    unfold chooseModel
    rw [if_neg hf, if_neg hs]
    constructor
    · intro he
      by_cases hge : analyzeTaskComplexity message ctx ≥ complexityThreshold
      · exact hge
      · rw [if_neg hge] at he
        exact absurd he fastModel_ne_smartModel
    · intro hge
      rw [if_pos hge]

/-- Witness for C5: overrides are honoured on a trivial text; the text
"review the architecture" scores 4 ≥ 3 without an override and picks smart. -/
theorem chooseModel_spec_witness :
    0 ≤ analyzeTaskComplexity (str "review the architecture") ⟨0, none⟩ ∧
    chooseModel (str "hello") ⟨0, some (str "fast")⟩ = fastModel ∧
    chooseModel (str "hello") ⟨0, some (str "smart")⟩ = smartModel ∧
    chooseModel (str "review the architecture") ⟨0, none⟩ = smartModel :=
  ⟨(chooseModel_spec (str "review the architecture") ⟨0, none⟩).1,
   (chooseModel_spec (str "hello") ⟨0, some (str "fast")⟩).2.1 rfl,
   (chooseModel_spec (str "hello") ⟨0, some (str "smart")⟩).2.2.1 rfl,
   ((chooseModel_spec (str "review the architecture") ⟨0, none⟩).2.2.2
      (by decide) (by decide)).mpr (by decide)⟩

end Clawd.ModelPicker

namespace Clawd

theorem prefix_append_cases {α : Type} {p s t : List α} (h : p <+: s ++ t) :
    p <+: s ∨ ∃ q, p = s ++ q ∧ q <+: t := by
  induction s generalizing p with
  | nil =>
      right
      exact ⟨p, rfl, by simpa using h⟩
  | cons a s ih =>
      cases p with
      | nil => left; exact List.nil_prefix
      | cons b p2 =>
          rw [List.cons_append] at h
          obtain ⟨hb, hp⟩ := List.cons_prefix_cons.mp h
          subst hb
          rcases ih hp with h1 | ⟨q, hq, hqt⟩
          · left
            exact List.cons_prefix_cons.mpr ⟨rfl, h1⟩
          · right
            exact ⟨q, by rw [List.cons_append, hq], hqt⟩

theorem infix_append_cases {α : Type} {p s t : List α} (h : p <:+: s ++ t) :
    p <:+: s ∨ p <:+: t ∨
      ∃ n, 0 < n ∧ n < p.length ∧ p.take n <:+ s ∧ p.drop n <+: t := by
  induction s generalizing p with
  | nil =>
      right; left
      simpa using h
  | cons a s ih =>
      rw [List.cons_append] at h
      rcases List.infix_cons_iff.mp h with hpre | hinf
      · rw [← List.cons_append] at hpre
        rcases prefix_append_cases hpre with h1 | ⟨q, hq, hqt⟩
        · left
          exact h1.isInfix
        · cases q with
          | nil =>
              left
              rw [hq, List.append_nil]
          | cons c q2 =>
              right; right
              refine ⟨(a :: s).length, by simp, ?_, ?_, ?_⟩
              · rw [hq]
                simp only [List.length_append, List.length_cons]
                omega
              · rw [hq, List.take_left]
              · rw [hq, List.drop_left]
                exact hqt
      · rcases ih hinf with h1 | h2 | ⟨n, hn0, hnl, hts, htp⟩
        · left
          exact h1.trans (List.suffix_cons a s).isInfix
        · right; left
          exact h2
        · right; right
          exact ⟨n, hn0, hnl, hts.trans (List.suffix_cons a s), htp⟩

theorem includes_append_intro {s t kw : List Char} (h : jsIncludes s kw = true) :
    jsIncludes (s ++ t) kw = true := by
  unfold jsIncludes at h ⊢
  rw [decide_eq_true_eq] at h ⊢
  exact h.trans ⟨[], t, by simp⟩

theorem includes_append_elim {p t s : List Char}
    (hpt : ¬ p <:+: t)
    (hsplit : ∀ n, n < p.length → 0 < n → ¬ (p.drop n <+: t))
    (h : jsIncludes (s ++ t) p = true) : jsIncludes s p = true := by
  unfold jsIncludes at h ⊢
  rw [decide_eq_true_eq] at h ⊢
  rcases infix_append_cases h with h1 | h1 | ⟨n, hn0, hnl, _, hdrop⟩
  · exact h1
  · exact absurd h1 hpt
  · exact absurd hdrop (hsplit n hnl hn0)

theorem or_includes_mono {s t k1 k2 : List Char}
    (h : (jsIncludes s k1 || jsIncludes s k2) = true) :
    (jsIncludes (s ++ t) k1 || jsIncludes (s ++ t) k2) = true := by
  simp only [Bool.or_eq_true] at h ⊢
  rcases h with h | h
  · exact Or.inl (includes_append_intro h)
  · exact Or.inr (includes_append_intro h)

theorem or3_includes_mono {s t k1 k2 k3 : List Char}
    (h : (jsIncludes s k1 || jsIncludes s k2 || jsIncludes s k3) = true) :
    (jsIncludes (s ++ t) k1 || jsIncludes (s ++ t) k2 || jsIncludes (s ++ t) k3) = true := by
  simp only [Bool.or_eq_true] at h ⊢
  rcases h with (h | h) | h
  · exact Or.inl (Or.inl (includes_append_intro h))
  · exact Or.inl (Or.inr (includes_append_intro h))
  · exact Or.inr (includes_append_intro h)

theorem or_includes_elim {s t p1 p2 : List Char}
    (h1pt : ¬ p1 <:+: t) (h1split : ∀ n, n < p1.length → 0 < n → ¬ (p1.drop n <+: t))
    (h2pt : ¬ p2 <:+: t) (h2split : ∀ n, n < p2.length → 0 < n → ¬ (p2.drop n <+: t))
    (h : (jsIncludes (s ++ t) p1 || jsIncludes (s ++ t) p2) = true) :
    (jsIncludes s p1 || jsIncludes s p2) = true := by
  simp only [Bool.or_eq_true] at h ⊢
  rcases h with h | h
  · exact Or.inl (includes_append_elim h1pt h1split h)
  · exact Or.inr (includes_append_elim h2pt h2split h)

theorem ite_nonneg_mono {c1 c2 : Prop} [Decidable c1] [Decidable c2] {k : ℤ}
    (himp : c1 → c2) (hk : 0 ≤ k) :
    (if c1 then k else 0) ≤ (if c2 then k else 0) := by
  by_cases h1 : c1
  · rw [if_pos h1, if_pos (himp h1)]
  · rw [if_neg h1]
    by_cases h2 : c2
    · rw [if_pos h2]
      exact hk
    · rw [if_neg h2]

theorem ite_nonneg_anti {c1 c2 : Prop} [Decidable c1] [Decidable c2] {k : ℤ}
    (himp : c2 → c1) (hk : 0 ≤ k) :
    (if c2 then k else 0) ≤ (if c1 then k else 0) :=
  ite_nonneg_mono himp hk

end Clawd

namespace Clawd.ModelPicker

open Clawd

theorem analyze_monotone_of_safe (message : List Char) (ctx : PickContext) (t : List Char)
    (htl : jsToLower t = t)
    (hw : ∀ p ∈ [str "what is", str "define", str "list", str "show me"],
      (¬ p <:+: t) ∧ ∀ n, n < p.length → 0 < n → ¬ (p.drop n <+: t)) :
    analyzeTaskComplexity message ctx ≤ analyzeTaskComplexity (message ++ t) ctx := by
  have hlow : jsToLower (message ++ t) = jsToLower message ++ t := by
    unfold jsToLower
    rw [List.map_append, show List.map Char.toLower t = t from htl]
  have hw1 := hw (str "what is") (by simp)
  have hw2 := hw (str "define") (by simp)
  have hw3 := hw (str "list") (by simp)
  have hw4 := hw (str "show me") (by simp)
  simp only [analyzeTaskComplexity]
  rw [hlow]
  refine max_le_max (le_refl (0 : ℤ)) ?_
  have h1 : (if (jsIncludes (jsToLower message) (str "analyze")
        || jsIncludes (jsToLower message) (str "analysis")) = true then (2:ℤ) else 0)
      ≤ (if (jsIncludes (jsToLower message ++ t) (str "analyze")
        || jsIncludes (jsToLower message ++ t) (str "analysis")) = true then (2:ℤ) else 0) :=
    ite_nonneg_mono or_includes_mono (by norm_num)
  have h2 : (if (jsIncludes (jsToLower message) (str "review")
        || jsIncludes (jsToLower message) (str "audit")) = true then (2:ℤ) else 0)
      ≤ (if (jsIncludes (jsToLower message ++ t) (str "review")
        || jsIncludes (jsToLower message ++ t) (str "audit")) = true then (2:ℤ) else 0) :=
    ite_nonneg_mono or_includes_mono (by norm_num)
  have h3 : (if (jsIncludes (jsToLower message) (str "implement")
        || jsIncludes (jsToLower message) (str "create")) = true then (2:ℤ) else 0)
      ≤ (if (jsIncludes (jsToLower message ++ t) (str "implement")
        || jsIncludes (jsToLower message ++ t) (str "create")) = true then (2:ℤ) else 0) :=
    ite_nonneg_mono or_includes_mono (by norm_num)
  have h4 : (if (jsIncludes (jsToLower message) (str "debug")
        || jsIncludes (jsToLower message) (str "fix")) = true then (2:ℤ) else 0)
      ≤ (if (jsIncludes (jsToLower message ++ t) (str "debug")
        || jsIncludes (jsToLower message ++ t) (str "fix")) = true then (2:ℤ) else 0) :=
    ite_nonneg_mono or_includes_mono (by norm_num)
  have h5 : (if (jsIncludes (jsToLower message) (str "optimize")
        || jsIncludes (jsToLower message) (str "improve")) = true then (2:ℤ) else 0)
      ≤ (if (jsIncludes (jsToLower message ++ t) (str "optimize")
        || jsIncludes (jsToLower message ++ t) (str "improve")) = true then (2:ℤ) else 0) :=
    ite_nonneg_mono or_includes_mono (by norm_num)
  have h6 : (if (jsIncludes (jsToLower message) (str "architecture")
        || jsIncludes (jsToLower message) (str "design")) = true then (3:ℤ) else 0)
      ≤ (if (jsIncludes (jsToLower message ++ t) (str "architecture")
        || jsIncludes (jsToLower message ++ t) (str "design")) = true then (3:ℤ) else 0) :=
    ite_nonneg_mono or_includes_mono (by norm_num)
  have h7 : (if (jsIncludes (jsToLower message) (str "code")
        || jsIncludes (jsToLower message) (str "function")
        || jsIncludes (jsToLower message) (str "class")) = true then (1:ℤ) else 0)
      ≤ (if (jsIncludes (jsToLower message ++ t) (str "code")
        || jsIncludes (jsToLower message ++ t) (str "function")
        || jsIncludes (jsToLower message ++ t) (str "class")) = true then (1:ℤ) else 0) :=
    ite_nonneg_mono or3_includes_mono (by norm_num)
  have h8 : (if (jsIncludes (jsToLower message) (str "pr")
        || jsIncludes (jsToLower message) (str "pull request")) = true then (2:ℤ) else 0)
      ≤ (if (jsIncludes (jsToLower message ++ t) (str "pr")
        || jsIncludes (jsToLower message ++ t) (str "pull request")) = true then (2:ℤ) else 0) :=
    ite_nonneg_mono or_includes_mono (by norm_num)
  have h9 : (if jsIncludes (jsToLower message) (str "refactor") = true then (2:ℤ) else 0)
      ≤ (if jsIncludes (jsToLower message ++ t) (str "refactor") = true then (2:ℤ) else 0) :=
    ite_nonneg_mono includes_append_intro (by norm_num)
  have h10 : (if message.length > 200 then (1:ℤ) else 0)
      ≤ (if (message ++ t).length > 200 then (1:ℤ) else 0) :=
    ite_nonneg_mono (fun hc => by rw [List.length_append]; omega) (by norm_num)
  have h11 : (if message.length > 500 then (2:ℤ) else 0)
      ≤ (if (message ++ t).length > 500 then (2:ℤ) else 0) :=
    ite_nonneg_mono (fun hc => by rw [List.length_append]; omega) (by norm_num)
  have hn1 : (if (jsIncludes (jsToLower message ++ t) (str "what is")
        || jsIncludes (jsToLower message ++ t) (str "define")) = true then (1:ℤ) else 0)
      ≤ (if (jsIncludes (jsToLower message) (str "what is")
        || jsIncludes (jsToLower message) (str "define")) = true then (1:ℤ) else 0) :=
    ite_nonneg_anti (or_includes_elim hw1.1 hw1.2 hw2.1 hw2.2) (by norm_num)
  have hn2 : (if (jsIncludes (jsToLower message ++ t) (str "list")
        || jsIncludes (jsToLower message ++ t) (str "show me")) = true then (1:ℤ) else 0)
      ≤ (if (jsIncludes (jsToLower message) (str "list")
        || jsIncludes (jsToLower message) (str "show me")) = true then (1:ℤ) else 0) :=
    ite_nonneg_anti (or_includes_elim hw3.1 hw3.2 hw4.1 hw4.2) (by norm_num)
  have hn3 : (if (message ++ t).length < 50 then (1:ℤ) else 0)
      ≤ (if message.length < 50 then (1:ℤ) else 0) :=
    ite_nonneg_anti (fun hc => by rw [List.length_append] at hc; omega) (by norm_num)
  omega

/-- C6: complexity scoring is monotone in high-weight indicators — extending
the text by appending the indicator phrase "architecture" or "design" never
decreases the complexity score returned by `analyzeTaskComplexity`, for any
text and context. -/
theorem complexity_monotone (message : List Char) (ctx : PickContext) (t : List Char)
    (ht : t = str "architecture" ∨ t = str "design") :
    analyzeTaskComplexity message ctx ≤ analyzeTaskComplexity (message ++ t) ctx := by
  rcases ht with rfl | rfl
  · exact analyze_monotone_of_safe message ctx _ (by decide) (by decide)
  · exact analyze_monotone_of_safe message ctx _ (by decide) (by decide)

/-- Witness for C6: appending " design is important" stepwise — here the
plain phrase "design" — to "review this" does not decrease the score. -/
theorem complexity_monotone_witness :
    analyzeTaskComplexity (str "review this") ⟨0, none⟩
      ≤ analyzeTaskComplexity (str "review this" ++ str "design") ⟨0, none⟩ :=
  complexity_monotone (str "review this") ⟨0, none⟩ (str "design") (Or.inr rfl)

end Clawd.ModelPicker


namespace Clawd.Bot

open Clawd

theorem getModelEmoji_length (m : List Char) : (getModelEmoji m).length = 1 := by
  simp only [getModelEmoji]
  split
  · rfl
  · split
    · rfl
    · split
      · rfl
      · split
        · rfl
        · rfl

theorem formatMetricsDetails_length_ge (m : Clawd.Metrics.Breakdown) :
    24 + (if m.total ≠ 0 then 10 + (toString m.total).length else 0)
      ≤ (formatMetricsDetails m).length := by
  unfold formatMetricsDetails
  rw [List.length_append, List.length_append]
  have hbase : (str "⏱️ **Timing Breakdown**\n").length = 24 := by rfl
  rw [hbase]
  have hconv : ((toString m.total).data).length = (toString m.total).length := rfl
  by_cases h0 : m.total ≠ 0
  · rw [if_pos h0, if_pos h0]
    rw [List.length_append, List.length_append]
    have h7 : (str "Total: ").length = 7 := by rfl
    have h3 : (str "ms\n").length = 3 := by rfl
    rw [h7, h3, hconv]
    omega
  · rw [if_neg h0, if_neg h0]
    omega

set_option maxRecDepth 100000 in
/-- Counterexample for C7 as frozen: with an empty stored skill, a 100
character model name and no metrics snapshot, the medium rendering carries
the model header while the full rendering carries only the (shorter) fixed
reaction-hint line, so raising the verbosity from medium to full strictly
decreases the rendered length. -/
theorem verbosity_length_counterexample :
    (formatResponseWithVerbosity [] [] (List.replicate 100 'm') none none none .full).length
      < (formatResponseWithVerbosity [] [] (List.replicate 100 'm') none none none
          .medium).length := by
  decide

/-- C7 (amended): provided a nonempty skill is stored whenever a nonempty
model is — which holds for every metadata record the bot stores — the
rendered content length never decreases along minimal → medium → full. -/
theorem verbosity_length_monotone (resp skill model : List Char)
    (metricsData : Option Clawd.Metrics.Breakdown) (me : Option (List Char)) (cs : Option ℤ)
    (hsk : model ≠ [] → skill ≠ []) :
    (formatResponseWithVerbosity resp skill model metricsData me cs .minimal).length
      ≤ (formatResponseWithVerbosity resp skill model metricsData me cs .medium).length ∧
    (formatResponseWithVerbosity resp skill model metricsData me cs .medium).length
      ≤ (formatResponseWithVerbosity resp skill model metricsData me cs .full).length := by
  have hsp : (str " ").length = 1 := by rfl
  have hsep : (str " | ").length = 3 := by rfl
  have hnl : (str "\n\n").length = 2 := by rfl
  have hst : (str " **").length = 3 := by rfl
  have hmid : (str "** | 🎯 **").length = 9 := by rfl
  have hend : (str "**\n\n").length = 4 := by rfl
  have hclk : (str "⏱️ ").length = 3 := by rfl
  have hms : (str "ms\n\n").length = 4 := by rfl
  constructor
  · cases metricsData with
    | none =>
        simp [formatResponseWithVerbosity, List.length_append]
        try omega
    | some m =>
        simp [formatResponseWithVerbosity, List.length_append]
        try omega
  · by_cases hm : model = []
    · cases metricsData with
      | none =>
          simp [formatResponseWithVerbosity, hm, List.length_append]
          try omega
      | some m =>
          have hfmd := formatMetricsDetails_length_ge m
          by_cases h0 : m.total = 0
          · have hd : (toString m.total).length = 1 := by rw [h0]; rfl
            rw [if_neg (by simp [h0])] at hfmd
            simp [formatResponseWithVerbosity, hm, List.length_append, hclk, hms, hd]
            omega
          · rw [if_pos h0] at hfmd
            simp [formatResponseWithVerbosity, hm, List.length_append, hclk, hms]
            omega
    · have hs : skill ≠ [] := hsk hm
      cases metricsData with
      | none =>
          simp [formatResponseWithVerbosity, hm, hs, List.length_append,
            getModelEmoji_length, hsp, hsep, hnl, hst, hmid, hend]
          try omega
      | some m =>
          have hfmd := formatMetricsDetails_length_ge m
          by_cases h0 : m.total = 0
          · have hd : (toString m.total).length = 1 := by rw [h0]; rfl
            rw [if_neg (by simp [h0])] at hfmd
            simp [formatResponseWithVerbosity, hm, hs, List.length_append,
              getModelEmoji_length, hsp, hsep, hnl, hst, hmid, hend, hclk, hms, hd]
            omega
          · rw [if_pos h0] at hfmd
            simp [formatResponseWithVerbosity, hm, hs, List.length_append,
              getModelEmoji_length, hsp, hsep, hnl, hst, hmid, hend, hclk, hms]
            omega

/-- Witness for C7 (amended) at a concrete record with model "Haiku", skill
"general", no metrics. -/
theorem verbosity_length_monotone_witness :
    (formatResponseWithVerbosity (Clawd.str "ok") (Clawd.str "general") (Clawd.str "Haiku")
        none none none .minimal).length
      ≤ (formatResponseWithVerbosity (Clawd.str "ok") (Clawd.str "general") (Clawd.str "Haiku")
          none none none .medium).length ∧
    (formatResponseWithVerbosity (Clawd.str "ok") (Clawd.str "general") (Clawd.str "Haiku")
        none none none .medium).length
      ≤ (formatResponseWithVerbosity (Clawd.str "ok") (Clawd.str "general") (Clawd.str "Haiku")
          none none none .full).length :=
  verbosity_length_monotone (Clawd.str "ok") (Clawd.str "general") (Clawd.str "Haiku")
    none none none (fun _ => by decide)

end Clawd.Bot

namespace Clawd.Bot

open Clawd Clawd.JsMap

theorem storeUpdate_found (st : Store) (msgId : ℕ) (md : MsgMeta)
    (upd : MsgMeta → MsgMeta) (hget : mapGet st msgId = some md) :
    (storeUpdate st msgId upd).2
      = mapSet st msgId { upd md with createdAt := md.createdAt, expiresAt := md.expiresAt } := by
  unfold storeUpdate
  rw [hget]

/-- C3: the reaction handler is idempotent for verbosity changes — delivering
the same verbosity-change event twice leaves exactly the same state (stored
verbosity, edited message content, offered reactions) as delivering it once;
and every reaction branch is a no-op, not an error, when no metadata record
exists for the event's message id. -/
theorem reaction_idempotent (now : ℕ) (st : BotState) (msgId : ℕ) (e e2 : List Char) :
    (isVerbosityEmoji e = true →
      handleReaction now (handleReaction now st msgId (some e)) msgId (some e)
        = handleReaction now st msgId (some e)) ∧
    (mapGet st.store msgId = none → handleReaction now st msgId (some e2) = st) := by
  constructor
  · intro hv
    have hcases : e = str "🔇" ∨ e = str "🔉" ∨ e = str "🔊" := by
      simp [isVerbosityEmoji, verbosityEmojis] at hv
      exact hv
    cases hget : mapGet st.store msgId with
    | none =>
        have h1 : handleReaction now st msgId (some e) = st := by
          simp [handleReaction, storeGet, hget]
        rw [h1]
        exact h1
    | some md =>
        by_cases hexp : now > md.expiresAt
        · have h1 : handleReaction now st msgId (some e)
              = { st with store := mapDelete st.store msgId } := by
            simp [handleReaction, storeGet, hget, hexp]
          rw [h1]
          simp [handleReaction, storeGet, mapGet_mapDelete_self]
        · have h1 : handleReaction now st msgId (some e)
              = changeVerbosity st msgId e md := by
            simp [handleReaction, storeGet, hget, hexp, hv]
          rw [h1]
          rcases hcases with rfl | rfl | rfl
          all_goals
            simp [changeVerbosity, getVerbosityFromEmoji, handleReaction, storeGet,
              storeUpdate, hget, hv, mapGet_mapSet_self, hexp, mapSet_mapSet_self,
              show ¬ (str "🔉" = str "🔇") from by decide,
              show ¬ (str "🔊" = str "🔇") from by decide,
              show ¬ (str "🔊" = str "🔉") from by decide]
  · intro hnone
    simp [handleReaction, storeGet, hnone]

end Clawd.Bot

namespace Clawd.Bot

/-- Witness for C3: a 🔉 event on the live record under id 1 is idempotent,
and a 🤔 event on the unknown id 2 leaves the state untouched. -/
theorem reaction_idempotent_witness :
    handleReaction 10 (handleReaction 10 sampleBotState 1 (some (Clawd.str "🔉"))) 1
        (some (Clawd.str "🔉"))
      = handleReaction 10 sampleBotState 1 (some (Clawd.str "🔉")) ∧
    handleReaction 10 sampleBotState 2 (some (Clawd.str "🤔")) = sampleBotState :=
  ⟨(reaction_idempotent 10 sampleBotState 1 (Clawd.str "🔉") (Clawd.str "🔉")).1 (by decide),
   (reaction_idempotent 10 sampleBotState 2 (Clawd.str "🔉") (Clawd.str "🤔")).2 (by rfl)⟩

end Clawd.Bot
